import Mathlib

/-!
Shallow embedding of the mini-redis server library
(`src/rust/mini-redis/lib/src/db.rs` and `src/rust/mini-redis/lib/src/cmd.rs`).

Modelling conventions:
* `Instant` and `Duration` are natural numbers of milliseconds.
* `Bytes` blobs are strings (their contents are opaque to all modelled code).
* The `BTreeMap<(Instant, u64), String>` expiration index is a list of
  key/value pairs kept sorted by the lexicographic order on `(Instant, u64)`;
  `insertExp` and `removeExp` mirror `BTreeMap::insert` / `BTreeMap::remove`.
* A Rust panic (e.g. `Option::unwrap` on `None`) is modelled by `Option.none`
  as the result of the operation.
* A tokio `broadcast::Sender<Bytes>` is abstracted by its number of live
  receivers; `broadcast::Sender::send` returns the receiver count on success
  and an error (here `none`) when there are no receivers.
-/

namespace MiniRedis

/-- Instants are milliseconds since an arbitrary origin. -/
abbrev Instant := Nat

/-- Durations in milliseconds. -/
abbrev Duration := Nat

/-- Byte blobs, modelled as strings. -/
abbrev Bytes := String

/-- An entry in the key/value store (`struct Entry` in db.rs). -/
structure Entry where
  id : Nat
  data : Bytes
  expires_at : Option Instant
deriving Repr, DecidableEq

/-- Key of the expiration index: an `(Instant, u64)` pair. -/
abbrev ExpKey := Instant × Nat

/-- Lexicographic strict order on `(Instant, u64)`, the `Ord` used by the
`BTreeMap` expiration index. -/
def keyLt (a b : ExpKey) : Prop :=
  a.1 < b.1 ∨ (a.1 = b.1 ∧ a.2 < b.2)

instance : DecidableRel keyLt := fun a b => by
  unfold keyLt
  infer_instance

/-- `BTreeMap::insert` on the sorted pair list: insert in order, replacing the
value if the key is already present. -/
def insertExp (k : ExpKey) (v : String) : List (ExpKey × String) → List (ExpKey × String)
  | [] => [(k, v)]
  | p :: rest =>
    if keyLt k p.1 then (k, v) :: p :: rest
    else if k = p.1 then (k, v) :: rest
    else p :: insertExp k v rest

/-- `BTreeMap::remove` on the pair list: drop the pair with the given key. -/
def removeExp (k : ExpKey) (l : List (ExpKey × String)) : List (ExpKey × String) :=
  l.filter (fun p => decide (p.1 ≠ k))

/-- The pair list is strictly sorted by `keyLt`: the `BTreeMap` shape
invariant, and the order in which the purge loop scans the index. -/
def sortedExp (l : List (ExpKey × String)) : Prop :=
  l.Pairwise (fun a b => keyLt a.1 b.1)

/-- The shared server state (`struct State` in db.rs).  `entries` and
`pub_sub` are `HashMap`s, modelled as functions to `Option`. -/
structure State where
  entries : String → Option Entry
  pub_sub : String → Option Nat
  expirations : List (ExpKey × String)
  next_id : Nat
  shutdown : Bool

/-- The state built by `Db::new`: empty maps, `next_id = 0`, not shut down. -/
def State.initial : State where
  entries := fun _ => none
  pub_sub := fun _ => none
  expirations := []
  next_id := 0
  shutdown := false

/-- `State::next_expiration`: the instant of the first key of the expiration
index, if any. -/
def State.next_expiration (s : State) : Option Instant :=
  s.expirations.head?.map (fun p => p.1.1)

/-- `Db::get`: look the key up and clone the blob. -/
def State.get (s : State) (key : String) : Option Bytes :=
  (s.entries key).map Entry.data

/-- The insert-and-reindex block of `Db::set` (db.rs lines 219-239): insert
the new entry into `entries`, and if the previous entry for the key had an
expiration, remove its `(when, prev_id)` pair from the expiration index. -/
def State.insertEntry (s : State) (key : String) (en : Entry) : State :=
  let prev := s.entries key
  let s' : State := { s with entries := fun q => if q = key then some en else s.entries q }
  match prev with
  | some pe =>
    match pe.expires_at with
    | some pw => { s' with expirations := removeExp (pw, pe.id) s'.expirations }
    | none => s'
  | none => s'

/-- `Db::set`.  Returns `none` when the Rust code panics (the
`next_expiration().map(..).unwrap()` on an empty expiration index), and
otherwise `some` of the new state together with the `notify` flag that decides
whether the background task is woken after the lock is released. -/
def State.set (s : State) (key : String) (value : Bytes) (expire : Option Duration)
    (now : Instant) : Option (State × Bool) :=
  let id := s.next_id
  let s₁ : State := { s with next_id := s.next_id + 1 }
  match expire with
  | some d =>
    let w := now + d
    match s₁.next_expiration with
    | none => none
    | some expiration =>
      let notify := decide (w < expiration)
      let s₂ : State := { s₁ with expirations := insertExp (w, id) key s₁.expirations }
      some (s₂.insertEntry key ⟨id, value, some w⟩, notify)
  | none => some (s₁.insertEntry key ⟨id, value, none⟩, false)

/-- `Db::subscribe`: return a receiver for the channel, creating the
broadcast channel on first use.  The broadcast sender is abstracted by its
receiver count; the returned number is the count after subscribing. -/
def State.subscribe (s : State) (key : String) : State × Nat :=
  match s.pub_sub key with
  | some rc =>
    ({ s with pub_sub := fun q => if q = key then some (rc + 1) else s.pub_sub q }, rc + 1)
  | none =>
    ({ s with pub_sub := fun q => if q = key then some 1 else s.pub_sub q }, 1)

/-- `broadcast::Sender::send`, abstracted: succeeds with the number of active
receivers, errs (`none`) when all receivers have dropped. -/
def broadcastSend (receivers : Nat) : Option Nat :=
  if receivers = 0 then none else some receivers

/-- `Db::publish`: look the sender up; absence or a failed send both yield 0. -/
def State.publish (s : State) (key : String) (_value : Bytes) : Nat :=
  ((s.pub_sub key).map (fun rc => (broadcastSend rc).getD 0)).getD 0

/-- `Db::shutdown_purge_task`: set the `shutdown` flag (the subsequent
`notify_one` carries no state and is modelled by running the purge-task body
once more, see `purge_expired_tasks_body`). -/
def Db.shutdown_purge_task (s : State) : State :=
  { s with shutdown := true }

/-- The `while let` loop of `Shared::purge_expired_keys`: pop index pairs from
the front; a pair due at `w ≤ now` is removed from both maps, the first pair
with `w > now` stops the scan and becomes the sleep target. -/
def purgeLoop (now : Instant) :
    List (ExpKey × String) → (String → Option Entry) →
      (String → Option Entry) × List (ExpKey × String) × Option Instant
  | [], entries => (entries, [], none)
  | p :: rest, entries =>
    if now < p.1.1 then (entries, p :: rest, some p.1.1)
    else purgeLoop now rest (fun q => if q = p.2 then none else entries q)

/-- `Shared::purge_expired_keys`: no-op returning `none` when shutting down,
otherwise run the purge scan at the current instant. -/
def Shared.purge_expired_keys (s : State) (now : Instant) : State × Option Instant :=
  if s.shutdown then (s, none)
  else
    let r := purgeLoop now s.expirations s.entries
    ({ s with entries := r.1, expirations := r.2.1 }, r.2.2)

/-- What one iteration of the background task does after waking
(`purge_expired_tasks` in db.rs). -/
inductive PurgeAction where
  /-- The loop guard `!shared.is_shutdown()` failed: the task returns. -/
  | exit
  /-- Purge returned a next instant: select sleeping until it or a notify. -/
  | sleepOrNotified (w : Instant)
  /-- No future expiration: wait for a notify. -/
  | awaitNotified
deriving Repr, DecidableEq

/-- One iteration of the `purge_expired_tasks` loop, taken at a wake-up:
check the shutdown flag, then purge and choose how to wait. -/
def purge_expired_tasks_body (s : State) (now : Instant) : State × PurgeAction :=
  if s.shutdown then (s, PurgeAction.exit)
  else
    match Shared.purge_expired_keys s now with
    | (s', some w) => (s', PurgeAction.sleepOrNotified w)
    | (s', none) => (s', PurgeAction.awaitNotified)

/-- The Db operations a client or the background task can run. -/
inductive Op where
  | set (key : String) (value : Bytes) (expire : Option Duration) (now : Instant)
  | get (key : String)
  | publish (channel : String) (value : Bytes)
  | subscribe (channel : String)
  | purge (now : Instant)

/-- Apply one operation; `none` when the operation panics. -/
def applyOp (s : State) : Op → Option State
  | Op.set k v e now => (State.set s k v e now).map Prod.fst
  | Op.get _ => some s
  | Op.publish _ _ => some s
  | Op.subscribe c => some (State.subscribe s c).1
  | Op.purge now => some (Shared.purge_expired_keys s now).1

/-- States reachable from `Db::new` by successful operations. -/
inductive Reachable : State → Prop
  | init : Reachable State.initial
  | step {s s' : State} (op : Op) : Reachable s → applyOp s op = some s' → Reachable s'

/-- Invariant I1: an entry has `expires_at = some t` iff the expiration index
holds exactly one pair keyed `(t, id)` mapping to that key, and every index
pair corresponds to such an entry. -/
def invariantI1 (s : State) : Prop :=
  (∀ k e, s.entries k = some e →
    ∀ t, (e.expires_at = some t ↔
      s.expirations.countP (fun p => decide (p.1 = (t, e.id) ∧ p.2 = k)) = 1)) ∧
  (∀ tp ∈ s.expirations,
    ∃ e, s.entries tp.2 = some e ∧ e.id = tp.1.2 ∧ e.expires_at = some tp.1.1)

/-- Invariant I2: every stored id is below `next_id`, and no two keys share
an id. -/
def invariantI2 (s : State) : Prop :=
  (∀ k e, s.entries k = some e → e.id < s.next_id) ∧
  (∀ k₁ k₂ e₁ e₂, s.entries k₁ = some e₁ → s.entries k₂ = some e₂ →
    e₁.id = e₂.id → k₁ = k₂)

/-! ## Commands (`cmd.rs` and, for the parsers, the spec) -/

/-- The `Get` command payload. -/
structure Get where
  key : String
deriving Repr, DecidableEq

/-- The `Publish` command payload. -/
structure Publish where
  channel : String
  message : Bytes
deriving Repr, DecidableEq

/-- The `Set` command payload. -/
structure SetCmd where
  key : String
  value : Bytes
  expire : Option Duration
deriving Repr, DecidableEq

/-- The `Subscribe` command payload. -/
structure Subscribe where
  channels : List String
deriving Repr, DecidableEq

/-- The `Unsubscribe` command payload. -/
structure Unsubscribe where
  channels : List String
deriving Repr, DecidableEq

/-- The `Ping` command payload. -/
structure Ping where
  msg : Option Bytes
deriving Repr, DecidableEq

/-- The `Unknown` command payload: the (lowercased) name captured at parse
time, returned verbatim by `get_name`. -/
structure Unknown where
  command_name : String
deriving Repr, DecidableEq

/-- `enum Command` of cmd.rs. -/
inductive Command where
  | get (cmd : Get)
  | publish (cmd : Publish)
  | set (cmd : SetCmd)
  | subscribe (cmd : Subscribe)
  | unsubscribe (cmd : Unsubscribe)
  | ping (cmd : Ping)
  | unknown (cmd : Unknown)
deriving Repr, DecidableEq

/-- `Command::get_name` (cmd.rs lines 113-123), transcribed literally:
note the `"pub"` arm for `Publish`. -/
def Command.get_name : Command → String
  | Command.get _ => "get"
  | Command.publish _ => "pub"
  | Command.set _ => "set"
  | Command.subscribe _ => "subscribe"
  | Command.unsubscribe _ => "unsubscribe"
  | Command.ping _ => "ping"
  | Command.unknown cmd => cmd.command_name

/-- A RESP protocol frame (`enum Frame` in frame.rs, as described by the
spec §3). -/
inductive Frame where
  | simple (text : String)
  | error (msg : String)
  | integer (n : Int)
  | bulk (blob : Bytes)
  | null
  | array (frames : List Frame)

/-- ASCII lowercasing of a string, the effect of `str::to_lowercase` on the
ASCII command names the dispatcher compares against. -/
def toLowerAscii (s : String) : String :=
  String.mk (s.data.map Char.toLower)

/-- Modelled from the spec: `Parse::new` (§4.2; parse.rs is not under src/).
Constructing the cursor from any non-Array frame is an error; an Array frame
yields its children as the remaining parts. -/
def parseNew : Frame → Except String (List Frame)
  | Frame.array l => Except.ok l
  | _ => Except.error "protocol error; expected array"

/-- Modelled from the spec: `Parse::next_string` (§4.2).  Consumes one frame,
which must be Simple or Bulk, and decodes it as text. -/
def nextString : List Frame → Except String (String × List Frame)
  | [] => Except.error "protocol error; unexpected end of stream"
  | Frame.simple t :: rest => Except.ok (t, rest)
  | Frame.bulk b :: rest => Except.ok (b, rest)
  | _ :: _ => Except.error "protocol error; expected simple frame or bulk frame"

/-- Modelled from the spec: `Parse::next_bytes` (§4.2).  Consumes one frame,
which must be Simple or Bulk, as a raw blob. -/
def nextBytes : List Frame → Except String (Bytes × List Frame)
  | [] => Except.error "protocol error; unexpected end of stream"
  | Frame.simple t :: rest => Except.ok (t, rest)
  | Frame.bulk b :: rest => Except.ok (b, rest)
  | _ :: _ => Except.error "protocol error; expected simple frame or bulk frame"

/-- Modelled from the spec: `Parse::next_int` (§4.2).  An Integer frame is
taken directly; Simple and Bulk frames are decoded as decimal ASCII. -/
def nextInt : List Frame → Except String (Int × List Frame)
  | [] => Except.error "protocol error; unexpected end of stream"
  | Frame.integer n :: rest => Except.ok (n, rest)
  | Frame.simple t :: rest =>
    match t.toInt? with
    | some n => Except.ok (n, rest)
    | none => Except.error "protocol error; invalid number"
  | Frame.bulk b :: rest =>
    match b.toInt? with
    | some n => Except.ok (n, rest)
    | none => Except.error "protocol error; invalid number"
  | _ :: _ => Except.error "protocol error; expected int frame"

/-- Modelled from the spec: `Parse::finish` (§4.2).  Succeeds only when the
cursor has no remaining parts; otherwise the command had trailing arguments. -/
def finish : List Frame → Except String Unit
  | [] => Except.ok ()
  | _ :: _ => Except.error "protocol error; expected end of frame, but there was more"

/-- Modelled from the spec: `Get::parse_frames` (§4.4; get.rs is not under
src/): one key. -/
def getParseFrames (parts : List Frame) : Except String (Get × List Frame) := do
  let (key, rest) ← nextString parts
  pure (⟨key⟩, rest)

/-- Modelled from the spec: `Publish::parse_frames` (§4.4; publish.rs is not
under src/): channel then message. -/
def publishParseFrames (parts : List Frame) : Except String (Publish × List Frame) := do
  let (channel, r₁) ← nextString parts
  let (message, r₂) ← nextBytes r₁
  pure (⟨channel, message⟩, r₂)

/-- Modelled from the spec: `Set::parse_frames` (§4.4; set.rs is not under
src/): key, value, then an optional `EX seconds` or `PX milliseconds`
(case-insensitive); end of stream means no expiration, any other option word
is an error. -/
def setParseFrames (parts : List Frame) : Except String (SetCmd × List Frame) := do
  let (key, r₁) ← nextString parts
  let (value, r₂) ← nextBytes r₁
  match r₂ with
  | [] => pure (⟨key, value, none⟩, [])
  | _ :: _ => do
    let (opt, r₃) ← nextString r₂
    if toLowerAscii opt = "ex" then do
      let (n, r₄) ← nextInt r₃
      pure (⟨key, value, some (n.toNat * 1000)⟩, r₄)
    else if toLowerAscii opt = "px" then do
      let (n, r₄) ← nextInt r₃
      pure (⟨key, value, some n.toNat⟩, r₄)
    else
      Except.error "currently SET only supports the expiration option"

/-- Modelled from the spec: the channel-list loop of
`Subscribe::parse_frames` / `Unsubscribe::parse_frames` (§4.4): read strings
until the end of the stream. -/
def readStrings : List Frame → Except String (List String)
  | [] => Except.ok []
  | Frame.simple t :: rest => (readStrings rest).map (fun l => t :: l)
  | Frame.bulk b :: rest => (readStrings rest).map (fun l => b :: l)
  | _ :: _ => Except.error "protocol error; expected simple frame or bulk frame"

/-- Modelled from the spec: `Subscribe::parse_frames` (§4.4): one or more
channels. -/
def subscribeParseFrames (parts : List Frame) : Except String (Subscribe × List Frame) := do
  let (first, rest) ← nextString parts
  let channels ← readStrings rest
  pure (⟨first :: channels⟩, [])

/-- Modelled from the spec: `Unsubscribe::parse_frames` (§4.4): zero or more
channels. -/
def unsubscribeParseFrames (parts : List Frame) : Except String (Unsubscribe × List Frame) := do
  let channels ← readStrings parts
  pure (⟨channels⟩, [])

/-- Modelled from the spec: `Ping::parse_frames` (§4.4): an optional
message; end of stream means no message. -/
def pingParseFrames (parts : List Frame) : Except String (Ping × List Frame) :=
  match parts with
  | [] => Except.ok (⟨none⟩, [])
  | _ :: _ => do
    let (m, rest) ← nextString parts
    pure (⟨some m⟩, rest)

/-- Run a command parser and then `parse.finish()`, as `Command::from_frame`
does for every recognized command name. -/
def withFinish {α : Type} (r : Except String (α × List Frame)) (mk : α → Command) :
    Except String Command :=
  match r with
  | Except.error e => Except.error e
  | Except.ok (c, rest) =>
    match finish rest with
    | Except.error e => Except.error e
    | Except.ok _ => Except.ok (mk c)

/-- `Command::from_frame` (cmd.rs lines 45-86): wrap the frame in a cursor,
read and lowercase the command name, and dispatch.  An unrecognized name
returns `Unknown` immediately, before `parse.finish()` runs; every
recognized name runs its parser and then `finish`. -/
def Command.from_frame (f : Frame) : Except String Command :=
  match parseNew f with
  | Except.error e => Except.error e
  | Except.ok parts =>
    match nextString parts with
    | Except.error e => Except.error e
    | Except.ok (name, rest) =>
      let command_name := toLowerAscii name
      if command_name = "get" then withFinish (getParseFrames rest) Command.get
      else if command_name = "publish" then withFinish (publishParseFrames rest) Command.publish
      else if command_name = "set" then withFinish (setParseFrames rest) Command.set
      else if command_name = "subscribe" then
        withFinish (subscribeParseFrames rest) Command.subscribe
      else if command_name = "unsubscribe" then
        withFinish (unsubscribeParseFrames rest) Command.unsubscribe
      else if command_name = "ping" then withFinish (pingParseFrames rest) Command.ping
      else Except.ok (Command.unknown ⟨command_name⟩)

/-! ## Concrete sample states used by the witnesses -/

/-- A state whose channel `ch` has three live receivers. -/
def pubState : State :=
  { State.initial with pub_sub := fun c => if c = "ch" then some 3 else none }

/-- A two-entry expiration index: `a` due at 5, `b` due at 7. -/
def expSample : List (ExpKey × String) :=
  [((5, 0), "a"), ((7, 1), "b")]

/-- A state holding entries `a` (expires at 5) and `b` (expires at 7). -/
def purgeSample : State :=
  { State.initial with
    entries := fun k =>
      if k = "a" then some ⟨0, "x", some 5⟩
      else if k = "b" then some ⟨1, "y", some 7⟩
      else none
    expirations := expSample
    next_id := 2 }

/-- A state with the shutdown flag raised. -/
def shutdownState : State :=
  { State.initial with shutdown := true }

/-! ## Helper lemmas -/

/-- The entry map after the insert-and-reindex block: the key now holds the
new entry, everything else is untouched. -/
theorem insertEntry_entries (s : State) (key : String) (en : Entry) (q : String) :
    (s.insertEntry key en).entries q = if q = key then some en else s.entries q := by
  simp only [State.insertEntry]
  cases hp : s.entries key with
  | none => rfl
  | some pe =>
    cases he : pe.expires_at with
    | none => simp [he]
    | some pw => simp [he]

/-- The insert-and-reindex block only touches `entries` and `expirations`. -/
theorem insertEntry_fields (s : State) (key : String) (en : Entry) :
    (s.insertEntry key en).next_id = s.next_id ∧
    (s.insertEntry key en).pub_sub = s.pub_sub ∧
    (s.insertEntry key en).shutdown = s.shutdown := by
  simp only [State.insertEntry]
  cases hp : s.entries key with
  | none => exact ⟨rfl, rfl, rfl⟩
  | some pe =>
    cases he : pe.expires_at with
    | none => simp [he]
    | some pw => simp [he]

/-- When the replaced entry (if any) carried no expiration, the
insert-and-reindex block leaves the expiration index unchanged. -/
theorem insertEntry_exp_unchanged (s : State) (key : String) (en : Entry)
    (h : ∀ pe, s.entries key = some pe → pe.expires_at = none) :
    (s.insertEntry key en).expirations = s.expirations := by
  simp only [State.insertEntry]
  cases hp : s.entries key with
  | none => rfl
  | some pe =>
    cases he : pe.expires_at with
    | none => simp [he]
    | some pw =>
      have hc := h pe hp
      rw [he] at hc
      cases hc

/-- Anatomy of a successful `Db::set`: the new entry holds the old `next_id`
and the requested expiration, other keys are untouched, `next_id` is bumped,
and `pub_sub` and the shutdown flag are unchanged. -/
theorem set_characterization (s : State) (k : String) (v : Bytes) (e : Option Duration)
    (t : Instant) (s' : State) (b : Bool) (h : State.set s k v e t = some (s', b)) :
    (∀ q, s'.entries q =
      if q = k then some ⟨s.next_id, v, e.map (fun d => t + d)⟩ else s.entries q) ∧
    s'.next_id = s.next_id + 1 ∧ s'.pub_sub = s.pub_sub ∧ s'.shutdown = s.shutdown := by
  cases e with
  | none =>
    simp only [State.set, Option.some.injEq, Prod.mk.injEq] at h
    obtain ⟨hs, -⟩ := h
    subst hs
    refine ⟨?_, ?_, ?_, ?_⟩
    · intro q
      rw [insertEntry_entries]
      rfl
    · exact (insertEntry_fields _ _ _).1
    · exact (insertEntry_fields _ _ _).2.1
    · exact (insertEntry_fields _ _ _).2.2
  | some d =>
    simp only [State.set] at h
    cases hne : ({ s with next_id := s.next_id + 1 } : State).next_expiration with
    | none =>
      rw [hne] at h
      cases h
    | some w' =>
      rw [hne] at h
      simp only [Option.some.injEq, Prod.mk.injEq] at h
      obtain ⟨hs, -⟩ := h
      subst hs
      refine ⟨?_, ?_, ?_, ?_⟩
      · intro q
        rw [insertEntry_entries]
        rfl
      · exact (insertEntry_fields _ _ _).1
      · exact (insertEntry_fields _ _ _).2.1
      · exact (insertEntry_fields _ _ _).2.2

/-- Behaviour of the purge scan on a sorted index: the surviving index pairs
are exactly those due strictly after `now`, the returned sleep target is the
instant of the first surviving pair, and an entry is dropped exactly when
some due pair maps to its key. -/
theorem purgeLoop_char (now : Instant) :
    ∀ (l : List (ExpKey × String)) (entries : String → Option Entry),
      sortedExp l →
      (purgeLoop now l entries).2.1 = l.filter (fun p => decide (now < p.1.1)) ∧
      (purgeLoop now l entries).2.2 =
        (l.filter (fun p => decide (now < p.1.1))).head?.map (fun p => p.1.1) ∧
      (∀ q, (purgeLoop now l entries).1 q =
        if l.any (fun p => decide (p.1.1 ≤ now) && decide (p.2 = q)) then none
        else entries q) := by
  intro l
  induction l with
  | nil =>
    intro entries _
    simp [purgeLoop]
  | cons p rest ih =>
    intro entries hs
    rw [sortedExp, List.pairwise_cons] at hs
    obtain ⟨hp, hrest⟩ := hs
    by_cases hnow : now < p.1.1
    · have hall : ∀ a ∈ p :: rest, now < a.1.1 := by
        intro a ha
        rcases List.mem_cons.mp ha with h | h
        · rw [h]; exact hnow
        · have hk := hp a h
          have hle : p.1.1 ≤ a.1.1 := by
            rcases hk with h₁ | ⟨h₁, -⟩
            · exact Nat.le_of_lt h₁
            · exact Nat.le_of_eq h₁
          exact lt_of_lt_of_le hnow hle
      have hfilter : (p :: rest).filter (fun x => decide (now < x.1.1)) = p :: rest := by
        apply List.filter_eq_self.mpr
        intro a ha
        exact decide_eq_true (hall a ha)
      refine ⟨?_, ?_, ?_⟩
      · simp [purgeLoop, hnow, hfilter]
      · simp [purgeLoop, hnow, hfilter]
      · intro q
        have hanyf : (p :: rest).any
            (fun x => decide (x.1.1 ≤ now) && decide (x.2 = q)) = false := by
          rw [List.any_eq_false]
          intro x hx
          simp [Nat.not_le.mpr (hall x hx)]
        simp [purgeLoop, hnow, hanyf]
    · have hle : p.1.1 ≤ now := Nat.le_of_not_lt hnow
      have hstep : purgeLoop now (p :: rest) entries =
          purgeLoop now rest (fun q => if q = p.2 then none else entries q) := by
        simp [purgeLoop, hnow]
      have ih' := ih (fun q => if q = p.2 then none else entries q) hrest
      refine ⟨?_, ?_, ?_⟩
      · rw [hstep, ih'.1, List.filter_cons]
        simp [hnow]
      · rw [hstep, ih'.2.1, List.filter_cons]
        simp [hnow]
      · intro q
        rw [hstep, ih'.2.2 q, List.any_cons]
        by_cases hr : rest.any (fun x => decide (x.1.1 ≤ now) && decide (x.2 = q)) = true
        · simp [hr]
        · rw [Bool.not_eq_true] at hr
          by_cases hq : q = p.2
          · subst hq
            simp [hr, hle]
          · have hq' : ¬ p.2 = q := fun hcon => hq hcon.symm
            simp [hr, hle, hq, hq']

/-- Facts holding in every reachable state.  Because `Db::set` with a TTL
panics whenever the expiration index is empty (see the C1 theorem), and the
index starts empty, no set with a TTL ever succeeds: reachable states have an
empty index and only non-expiring entries.  Ids stay unique and below
`next_id`, and the shutdown flag stays down. -/
theorem reachable_facts {s : State} (h : Reachable s) :
    s.expirations = [] ∧
    (∀ k e, s.entries k = some e → e.expires_at = none) ∧
    (∀ k e, s.entries k = some e → e.id < s.next_id) ∧
    (∀ k₁ k₂ e₁ e₂, s.entries k₁ = some e₁ → s.entries k₂ = some e₂ →
      e₁.id = e₂.id → k₁ = k₂) ∧
    s.shutdown = false := by
  induction h with
  | init =>
    refine ⟨rfl, ?_, ?_, ?_, rfl⟩
    · intro k e hk
      simp [State.initial] at hk
    · intro k e hk
      simp [State.initial] at hk
    · intro k₁ k₂ e₁ e₂ hk₁ hk₂
      simp [State.initial] at hk₁
  | @step s₀ s₁ op hr heq ih =>
    obtain ⟨hexp, hnone, hlt, hinj, hsd⟩ := ih
    cases op with
    | set k v e now =>
      cases e with
      | some d =>
        simp [applyOp, State.set, State.next_expiration, hexp] at heq
      | none =>
        simp only [applyOp] at heq
        have hdef : State.set s₀ k v none now =
            some ((({ s₀ with next_id := s₀.next_id + 1 } : State)).insertEntry k
              ⟨s₀.next_id, v, none⟩, false) := rfl
        rw [hdef] at heq
        simp only [Option.map_some', Option.some.injEq] at heq
        subst heq
        have hentX : ∀ q,
            ((({ s₀ with next_id := s₀.next_id + 1 } : State)).insertEntry k
              ⟨s₀.next_id, v, none⟩).entries q =
            if q = k then some ⟨s₀.next_id, v, none⟩ else s₀.entries q :=
          fun q => insertEntry_entries _ k _ q
        have hfX := insertEntry_fields ({ s₀ with next_id := s₀.next_id + 1 } : State) k
          (⟨s₀.next_id, v, none⟩ : Entry)
        have hnid : ((({ s₀ with next_id := s₀.next_id + 1 } : State)).insertEntry k
            ⟨s₀.next_id, v, none⟩).next_id = s₀.next_id + 1 := hfX.1
        have hXsd : ((({ s₀ with next_id := s₀.next_id + 1 } : State)).insertEntry k
            ⟨s₀.next_id, v, none⟩).shutdown = s₀.shutdown := hfX.2.2
        have hXexp := insertEntry_exp_unchanged ({ s₀ with next_id := s₀.next_id + 1 } : State) k
          (⟨s₀.next_id, v, none⟩ : Entry) (fun pe hp => hnone k pe hp)
        refine ⟨?_, ?_, ?_, ?_, ?_⟩
        · rw [hXexp]
          exact hexp
        · intro q en hq
          rw [hentX q] at hq
          by_cases hqk : q = k
          · rw [if_pos hqk] at hq
            injection hq with hq
            subst hq
            rfl
          · rw [if_neg hqk] at hq
            exact hnone q en hq
        · intro q en hq
          rw [hentX q] at hq
          rw [hnid]
          by_cases hqk : q = k
          · rw [if_pos hqk] at hq
            injection hq with hq
            subst hq
            exact Nat.lt_succ_self _
          · rw [if_neg hqk] at hq
            exact Nat.lt_succ_of_lt (hlt q en hq)
        · intro k₁ k₂ e₁ e₂ h₁ h₂ hid
          rw [hentX k₁] at h₁
          rw [hentX k₂] at h₂
          by_cases hq₁ : k₁ = k <;> by_cases hq₂ : k₂ = k
          · rw [hq₁, hq₂]
          · exfalso
            rw [if_pos hq₁] at h₁
            rw [if_neg hq₂] at h₂
            injection h₁ with h₁
            subst h₁
            have hb := hlt k₂ e₂ h₂
            have hid' : s₀.next_id = e₂.id := hid
            omega
          · exfalso
            rw [if_neg hq₁] at h₁
            rw [if_pos hq₂] at h₂
            injection h₂ with h₂
            subst h₂
            have hb := hlt k₁ e₁ h₁
            have hid' : e₁.id = s₀.next_id := hid
            omega
          · rw [if_neg hq₁] at h₁
            rw [if_neg hq₂] at h₂
            exact hinj k₁ k₂ e₁ e₂ h₁ h₂ hid
        · rw [hXsd]
          exact hsd
    | get k =>
      simp only [applyOp, Option.some.injEq] at heq
      subst heq
      exact ⟨hexp, hnone, hlt, hinj, hsd⟩
    | publish c v =>
      simp only [applyOp, Option.some.injEq] at heq
      subst heq
      exact ⟨hexp, hnone, hlt, hinj, hsd⟩
    | subscribe c =>
      simp only [applyOp, Option.some.injEq] at heq
      cases hpc : s₀.pub_sub c <;> rw [State.subscribe, hpc] at heq <;> subst heq <;>
        exact ⟨hexp, hnone, hlt, hinj, hsd⟩
    | purge now =>
      simp only [applyOp, Option.some.injEq] at heq
      rw [Shared.purge_expired_keys] at heq
      rw [hsd] at heq
      simp only [Bool.false_eq_true, if_false, hexp, purgeLoop] at heq
      subst heq
      exact ⟨rfl, hnone, hlt, hinj, rfl⟩

/-! ## Claim theorems -/

/-- Claim C1.  The claim states that `set` with a TTL computes `notify` as
false when the expiration index is empty and never reaches the panic branch.
On the code this is false: `next_expiration().map(..).unwrap()` panics on an
empty index, so `set` with a TTL on a state with an empty index — e.g. any
fresh `Db` — panics (modelled as `none`). -/
theorem set_with_ttl_panics_on_empty_index :
    (∀ (s : State) (k : String) (v : Bytes) (d : Duration) (now : Instant),
      s.expirations = [] → State.set s k v (some d) now = none) ∧
    State.set State.initial "a" "b" (some 5) 0 = none := by
  constructor
  · intro s k v d now h
    simp [State.set, State.next_expiration, h]
  · rfl

/-- Claim C1 witness: the general panic statement applied at a concrete
fresh state. -/
theorem set_with_ttl_panics_witness :
    State.set State.initial "x" "y" (some 3) 1 = none :=
  set_with_ttl_panics_on_empty_index.1 State.initial "x" "y" 3 1 rfl

/-- Claim C3.  The claim requires `GET k` after `SET k v PX 100` and a wait
to return `Null`.  On the code the scenario never gets that far: the `SET`
with a TTL itself panics on the empty expiration index of a fresh `Db`
(second conjunct).  A `SET` without TTL does behave as claimed: the first
conjunct shows the stored value is returned by `get`. -/
theorem set_px_then_get_scenario :
    (∃ s₁ b₁, State.set State.initial "k" "v" none 0 = some (s₁, b₁) ∧
      State.get s₁ "k" = some "v") ∧
    State.set State.initial "k" "v" (some 100) 0 = none :=
  ⟨⟨_, _, rfl, rfl⟩, rfl⟩

/-- Claim C2.  Invariant I1 holds in every reachable state: an entry carries
`expires_at = some t` iff the expiration index holds exactly one pair
`((t, id), k)`, and every index pair corresponds to a live entry.  (Because
`set` with a TTL always panics — see the C1 theorem — reachable states have
an empty index and only non-expiring entries, so the invariant holds with
both sides of the iff false.) -/
theorem i1_holds_in_reachable_states {s : State} (h : Reachable s) : invariantI1 s := by
  obtain ⟨hexp, hnone, -, -, -⟩ := reachable_facts h
  constructor
  · intro k e hk t
    constructor
    · intro ht
      rw [hnone k e hk] at ht
      cases ht
    · intro hcount
      rw [hexp] at hcount
      simp at hcount
  · intro tp htp
    rw [hexp] at htp
    cases htp

/-- Claim C2 witness: invariant I1 at the initial state. -/
theorem i1_witness_initial : invariantI1 State.initial :=
  i1_holds_in_reachable_states Reachable.init

/-- Claim C4.  `publish` returns 0 when the channel has no broadcast sender
or all of its receivers have dropped, and otherwise the number of active
receivers; it is a total function (the send error is absorbed by
`unwrap_or(0)`), so no error reaches the caller. -/
theorem publish_returns_subscriber_count (s : State) (c : String) (v : Bytes) :
    (s.pub_sub c = none → State.publish s c v = 0) ∧
    (s.pub_sub c = some 0 → State.publish s c v = 0) ∧
    (∀ n, s.pub_sub c = some n → 0 < n → State.publish s c v = n) := by
  refine ⟨?_, ?_, ?_⟩
  · intro h
    simp [State.publish, h]
  · intro h
    simp [State.publish, h, broadcastSend]
  · intro n h hn
    simp [State.publish, h, broadcastSend, Nat.pos_iff_ne_zero.mp hn]

/-- Claim C4 witness: a channel with three receivers and an absent channel. -/
theorem publish_witness :
    State.publish pubState "ch" "m" = 3 ∧ State.publish pubState "nochan" "m" = 0 :=
  ⟨(publish_returns_subscriber_count pubState "ch" "m").2.2 3 rfl (by decide),
   (publish_returns_subscriber_count pubState "nochan" "m").1 rfl⟩

/-- Claim C5.  One purge step with the shutdown flag down removes exactly the
index pairs due at or before `now` from both maps (scanning the sorted index
from the front), returns the instant of the first remaining pair as the sleep
target (`none` when the index ends up empty), and touches nothing else; with
the shutdown flag up it removes nothing and returns `none`. -/
theorem purge_expired_keys_spec (s : State) (now : Instant) :
    (s.shutdown = true → Shared.purge_expired_keys s now = (s, none)) ∧
    (s.shutdown = false → sortedExp s.expirations →
      (Shared.purge_expired_keys s now).1.expirations =
        s.expirations.filter (fun p => decide (now < p.1.1)) ∧
      (Shared.purge_expired_keys s now).2 =
        (s.expirations.filter (fun p => decide (now < p.1.1))).head?.map (fun p => p.1.1) ∧
      (∀ q, (Shared.purge_expired_keys s now).1.entries q =
        if s.expirations.any (fun p => decide (p.1.1 ≤ now) && decide (p.2 = q)) then none
        else s.entries q) ∧
      (Shared.purge_expired_keys s now).1.pub_sub = s.pub_sub ∧
      (Shared.purge_expired_keys s now).1.next_id = s.next_id ∧
      (Shared.purge_expired_keys s now).1.shutdown = false) := by
  constructor
  · intro h
    simp [Shared.purge_expired_keys, h]
  · intro h hsorted
    have hc := purgeLoop_char now s.expirations s.entries hsorted
    have hred : Shared.purge_expired_keys s now =
        ({ s with
            entries := (purgeLoop now s.expirations s.entries).1,
            expirations := (purgeLoop now s.expirations s.entries).2.1 },
          (purgeLoop now s.expirations s.entries).2.2) := by
      simp [Shared.purge_expired_keys, h]
    rw [hred]
    exact ⟨hc.1, hc.2.1, hc.2.2, rfl, rfl, h⟩

/-- Claim C5 witness: purging the two-entry sample at instant 6 removes the
pair due at 5 and its entry, keeps the pair due at 7, and returns 7; with the
shutdown flag up nothing happens. -/
theorem purge_expired_keys_witness :
    (Shared.purge_expired_keys purgeSample 6).1.expirations = [((7, 1), "b")] ∧
    (Shared.purge_expired_keys purgeSample 6).2 = some 7 ∧
    (Shared.purge_expired_keys purgeSample 6).1.entries "a" = none ∧
    (Shared.purge_expired_keys purgeSample 6).1.entries "b" = some ⟨1, "y", some 7⟩ ∧
    Shared.purge_expired_keys shutdownState 6 = (shutdownState, none) := by
  have h := (purge_expired_keys_spec purgeSample 6).2 rfl
    (by unfold sortedExp purgeSample expSample; decide)
  refine ⟨?_, ?_, ?_, ?_, (purge_expired_keys_spec shutdownState 6).1 rfl⟩
  · rw [h.1]
    rfl
  · rw [h.2.1]
    rfl
  · rw [h.2.2.1 "a"]
    rfl
  · rw [h.2.2.1 "b"]
    rfl

/-- Claim C6.  Once `shutdown_purge_task` has raised the shutdown flag, the
purge task exits on its next wake: the loop body returns `exit` without any
purge action, and `purge_expired_keys` itself is a no-op returning `none` on
any state whose shutdown flag is up. -/
theorem shutdown_flag_stops_purge_loop (s : State) (now : Instant) :
    (Db.shutdown_purge_task s).shutdown = true ∧
    purge_expired_tasks_body (Db.shutdown_purge_task s) now =
      (Db.shutdown_purge_task s, PurgeAction.exit) ∧
    (s.shutdown = true →
      purge_expired_tasks_body s now = (s, PurgeAction.exit) ∧
      Shared.purge_expired_keys s now = (s, none)) := by
  refine ⟨rfl, rfl, ?_⟩
  intro h
  constructor
  · simp [purge_expired_tasks_body, h]
  · simp [Shared.purge_expired_keys, h]

/-- Claim C6 witness: the loop body exits at a concrete shut-down state. -/
theorem shutdown_purge_witness :
    purge_expired_tasks_body shutdownState 0 = (shutdownState, PurgeAction.exit) :=
  ((shutdown_flag_stops_purge_loop shutdownState 0).2.2 rfl).1

/-- Claim C7.  Invariant I2 holds in every reachable state: ids are pairwise
distinct and all below `next_id`; moreover every successful `set` stores the
current `next_id` as the new entry's id and bumps `next_id` by one, so no id
is ever reused. -/
theorem i2_ids_unique_and_monotone {s : State} (h : Reachable s) :
    invariantI2 s ∧
    (∀ k v e now s' b, State.set s k v e now = some (s', b) →
      s'.next_id = s.next_id + 1 ∧
      ∃ en, s'.entries k = some en ∧ en.id = s.next_id) := by
  obtain ⟨-, -, hlt, hinj, -⟩ := reachable_facts h
  refine ⟨⟨hlt, hinj⟩, ?_⟩
  intro k v e now s' b hset
  obtain ⟨hent, hnid, -, -⟩ := set_characterization s k v e now s' b hset
  refine ⟨hnid, ⟨s.next_id, v, e.map (fun d => now + d)⟩, ?_, rfl⟩
  rw [hent k]
  simp

/-- Claim C7 witness: invariant I2 at the initial state. -/
theorem i2_witness_initial : invariantI2 State.initial :=
  (i2_ids_unique_and_monotone Reachable.init).1

/-- Claim C8.  Two identical consecutive successful `set` calls leave, for
every key, the same stored data and the same presence of an expiration as a
single call (the entry id and the exact expiration pair may differ, as the
claim allows). -/
theorem set_twice_equiv_set_once (s : State) (k : String) (v : Bytes) (e : Option Duration)
    (t₁ t₂ : Instant) (s₁ s₂ : State) (b₁ b₂ : Bool)
    (h₁ : State.set s k v e t₁ = some (s₁, b₁))
    (h₂ : State.set s₁ k v e t₂ = some (s₂, b₂)) :
    ∀ q, (s₂.entries q).map Entry.data = (s₁.entries q).map Entry.data ∧
      (s₂.entries q).map (fun en => en.expires_at.isSome) =
        (s₁.entries q).map (fun en => en.expires_at.isSome) := by
  obtain ⟨hent₁, -, -, -⟩ := set_characterization s k v e t₁ s₁ b₁ h₁
  obtain ⟨hent₂, -, -, -⟩ := set_characterization s₁ k v e t₂ s₂ b₂ h₂
  intro q
  by_cases hq : q = k
  · subst hq
    rw [hent₂ q, hent₁ q]
    simp
  · rw [hent₂ q, hent₁ q]
    simp [hq]

/-- Claim C8 witness: two consecutive `set`s of the same key and value on a
fresh state store the same data as one. -/
theorem set_twice_witness :
    ∃ s₁ b₁ s₂ b₂, State.set State.initial "k" "v" none 0 = some (s₁, b₁) ∧
      State.set s₁ "k" "v" none 1 = some (s₂, b₂) ∧
      ∀ q, (s₂.entries q).map Entry.data = (s₁.entries q).map Entry.data := by
  refine ⟨_, _, _, _, rfl, rfl, ?_⟩
  intro q
  exact (set_twice_equiv_set_once State.initial "k" "v" none 0 1 _ _ _ _ rfl rfl q).1

/-- Claim C9.  `Command::get_name` returns `"pub"` for `Publish` — not
`"publish"` — the lowercase command name for the other recognized commands,
and the stored name for `Unknown`. -/
theorem get_name_values :
    (∀ c, Command.get_name (Command.publish c) = "pub") ∧
    (∀ c, Command.get_name (Command.get c) = "get") ∧
    (∀ c, Command.get_name (Command.set c) = "set") ∧
    (∀ c, Command.get_name (Command.subscribe c) = "subscribe") ∧
    (∀ c, Command.get_name (Command.unsubscribe c) = "unsubscribe") ∧
    (∀ c, Command.get_name (Command.ping c) = "ping") ∧
    (∀ c, Command.get_name (Command.unknown c) = c.command_name) :=
  ⟨fun _ => rfl, fun _ => rfl, fun _ => rfl, fun _ => rfl, fun _ => rfl,
   fun _ => rfl, fun _ => rfl⟩

/-- Claim C10.  `from_frame` on an array whose first string lowercases to an
unrecognized name returns `Ok(Unknown(name))` immediately, whatever the
remaining elements are — `parse.finish()` never runs for it — while a
recognized name with trailing arguments is rejected by `finish` (second
conjunct shows it for `GET` with an extra argument). -/
theorem from_frame_unknown_bypasses_arity_check :
    (∀ (name : String) (rest : List Frame),
      toLowerAscii name ∉ ["get", "publish", "set", "subscribe", "unsubscribe", "ping"] →
      Command.from_frame (Frame.array (Frame.bulk name :: rest)) =
        Except.ok (Command.unknown ⟨toLowerAscii name⟩)) ∧
    Command.from_frame (Frame.array [Frame.bulk "get", Frame.bulk "k", Frame.bulk "x"]) =
      Except.error "protocol error; expected end of frame, but there was more" := by
  constructor
  · intro name rest h
    simp only [List.mem_cons, List.mem_singleton, not_or] at h
    obtain ⟨h₁, h₂, h₃, h₄, h₅, h₆, -⟩ := h
    simp [Command.from_frame, parseNew, nextString, h₁, h₂, h₃, h₄, h₅, h₆]
  · rfl

/-- Claim C10 witness: an unknown command with two trailing arguments parses
to `Unknown`. -/
theorem from_frame_unknown_witness :
    Command.from_frame (Frame.array [Frame.bulk "FOO", Frame.bulk "x", Frame.bulk "y"]) =
      Except.ok (Command.unknown ⟨"foo"⟩) := by
  have h := from_frame_unknown_bypasses_arity_check.1 "FOO"
    [Frame.bulk "x", Frame.bulk "y"] (by decide)
  have hl : toLowerAscii "FOO" = "foo" := by decide
  rw [hl] at h
  exact h

end MiniRedis
